import Mathlib

/-!
Verification of `sra_dispatch/balance_nodes.py` (function `balance_nodes`).

The embedding models, from the source:
* `convert_size` — the inner size-normalisation closure (lines 51-67),
  with Python `float(...)` parsing modelled by `parseFloatC` below;
* the node count `max_cpu_request // cpu_per_node` (line 42);
* the overflow-adjustment loop on `avg_disk_per_node` (lines 85-90);
* the greedy partitioning loop (lines 118-144), including the exact
  pandas-level order of row drops and weight accumulation;
* the final CPU reallocation `nodes // len(all_groups)` (lines 149-156).

Sizes are exact rationals (`ℚ`).  The IEEE-754 special values that arise
from numpy's division by zero (line 76 with `nodes = 0`) and from the
maximum of an empty column are modelled by the `PFloat` wrapper.
String operations are implemented structurally over `List Char` so that
every definition evaluates inside the kernel.
-/

deriving instance DecidableEq for Except

attribute [local semireducible] Rat.add Rat.mul Rat.inv Rat.sub

namespace BalanceNodes

/-- A pandas cell of the `run_1_size` column: missing (`None`/`NaN`, so
`pd.isna` is true), a string, or a numeric value. -/
inductive Cell where
  | null : Cell
  | str (s : String) : Cell
  | num (q : ℚ) : Cell
  deriving DecidableEq, Repr

/-- The Python exception that can escape `convert_size` (an unparseable
remainder after a unit suffix is stripped). -/
inductive PyErr where
  | valueError : PyErr
  deriving DecidableEq, Repr

/-- Python `str.strip()`: remove leading and trailing whitespace. -/
def pyStrip (cs : List Char) : List Char :=
  ((cs.dropWhile Char.isWhitespace).reverse.dropWhile Char.isWhitespace).reverse

/-- `isPref pat cs`: `pat` is a prefix of `cs`. -/
def isPref : List Char → List Char → Bool
  | [], _ => true
  | _ :: _, [] => false
  | a :: as, b :: bs => a == b && isPref as bs

/-- Python substring test `pat in s`. -/
def hasSubC (cs pat : List Char) : Bool :=
  match cs with
  | [] => isPref pat []
  | c :: r => isPref pat (c :: r) || hasSubC r pat

/-- Worker for `listRemove`: `skip` counts characters of an already
matched occurrence that remain to be discarded. -/
def listRemoveGo (pat : List Char) : ℕ → List Char → List Char
  | _ + 1, [] => []
  | 0, [] => []
  | k + 1, _ :: r => listRemoveGo pat k r
  | 0, c :: r =>
    if isPref pat (c :: r) then listRemoveGo pat (pat.length - 1) r
    else c :: listRemoveGo pat 0 r

/-- Python `s.replace(pat, "")` for non-empty `pat`: remove every
non-overlapping occurrence, scanning left to right. -/
def listRemove (cs pat : List Char) : List Char :=
  if pat.isEmpty then cs else listRemoveGo pat 0 cs

/-- Value of a digit string, most significant first. -/
def digitsVal (cs : List Char) : ℕ :=
  cs.foldl (fun a c => 10 * a + (c.toNat - 48)) 0

/-- All characters are decimal digits. -/
def allDigits (cs : List Char) : Bool :=
  cs.all (fun c => c.isDigit)

/-- Split a character list at the first character satisfying `p`:
returns the prefix before it and, when found, the remainder after it. -/
def splitFirst (p : Char → Bool) : List Char → List Char × Option (List Char)
  | [] => ([], none)
  | c :: r =>
    if p c then ([], some r)
    else
      let t := splitFirst p r
      (c :: t.1, t.2)

/-- Optional leading sign of a Python float literal. -/
def parseSign : List Char → ℚ × List Char
  | '+' :: r => (1, r)
  | '-' :: r => (-1, r)
  | cs => (1, cs)

/-- Exponent part of a Python float literal (after `e`/`E`):
an optional sign followed by one or more digits. -/
def parseExpVal : List Char → Option ℤ
  | '+' :: r => if !r.isEmpty && allDigits r then some (digitsVal r) else none
  | '-' :: r => if !r.isEmpty && allDigits r then some (-(digitsVal r : ℤ)) else none
  | r => if !r.isEmpty && allDigits r then some (digitsVal r) else none

/-- Mantissa of a Python float literal: digits with an optional single
decimal point; at least one digit overall (`"1."` and `".5"` parse,
`"."` does not). -/
def parseMantissa (cs : List Char) : Option ℚ :=
  match splitFirst (fun c => c == '.') cs with
  | (ip, none) =>
    if !ip.isEmpty && allDigits ip then some (digitsVal ip) else none
  | (ip, some fp) =>
    if fp.contains '.' then none
    else if ip.isEmpty && fp.isEmpty then none
    else if allDigits ip && allDigits fp then
      some ((digitsVal ip : ℚ) + (digitsVal fp : ℚ) / (10 : ℚ) ^ fp.length)
    else none

/-- Integer power of ten over `ℚ` (negative exponents allowed). -/
def pow10 (e : ℤ) : ℚ :=
  if 0 ≤ e then (10 : ℚ) ^ e.toNat else ((10 : ℚ) ^ (-e).toNat)⁻¹

/-- Model of Python `float(s)` restricted to finite decimal literals:
surrounding whitespace is ignored, then an optional sign, a decimal
mantissa and an optional `e`/`E` exponent.  `none` models a raised
`ValueError`.  The special literals `inf`/`nan` and underscore digit
separators are not modelled; no input in this development uses them. -/
def parseFloatC (cs : List Char) : Option ℚ :=
  let sc := parseSign (pyStrip cs)
  let me := splitFirst (fun c => c == 'e' || c == 'E') sc.2
  match parseMantissa me.1, me.2 with
  | some m, none => some (sc.1 * m)
  | some m, some ec =>
    match parseExpVal ec with
    | some e => some (sc.1 * m * pow10 e)
    | none => none
  | none, _ => none

/-- Embedding of the closure `convert_size` (balance_nodes.py lines 51-67).

* `pd.isna` is true exactly for the `null` cell;
* `str(x)` of a numeric cell round-trips through `float`, so it parses;
* otherwise the stripped string is parsed as a float; on failure, a unit
  suffix `GB`/`MB`/`KB` (checked in that order, as a substring) is removed
  (all occurrences, Python `str.replace`) and the remainder parsed, which
  raises `ValueError` when the remainder is not itself parseable;
* with no recognised unit, a warning is logged and `0` returned. -/
def convert_size : Cell → Except PyErr ℚ
  | .null => .ok 0
  | .num q => .ok q
  | .str s0 =>
    let s := pyStrip s0.data
    match parseFloatC s with
    | some q => .ok q
    | none =>
      if hasSubC s "GB".data then
        match parseFloatC (listRemove s "GB".data) with
        | some q => .ok (q * 1024)
        | none => .error .valueError
      else if hasSubC s "MB".data then
        match parseFloatC (listRemove s "MB".data) with
        | some q => .ok q
        | none => .error .valueError
      else if hasSubC s "KB".data then
        match parseFloatC (listRemove s "KB".data) with
        | some q => .ok (q / 1024)
        | none => .error .valueError
      else .ok 0

/-- A numpy double as it appears in this function: a finite rational or
one of the special values `nan`, `inf`, `-inf` produced by dividing by a
zero node count or taking the max of an empty column. -/
inductive PFloat where
  | nan : PFloat
  | inf : PFloat
  | ninf : PFloat
  | fin (q : ℚ) : PFloat
  deriving DecidableEq, Repr

/-- IEEE-754 `<` on `PFloat` (any comparison with `nan` is false). -/
def PFloat.lt : PFloat → PFloat → Bool
  | .nan, _ => false
  | _, .nan => false
  | .ninf, .ninf => false
  | .ninf, _ => true
  | _, .ninf => false
  | .inf, _ => false
  | .fin _, .inf => true
  | .fin a, .fin b => decide (a < b)

/-- numpy scalar division `s / n` for a float `s` and Python int `n`
(line 76): division by zero yields `±inf` (or `nan` for `0/0`) with a
runtime warning, not an exception. -/
def pyDivNat (s : ℚ) (n : ℕ) : PFloat :=
  if n = 0 then (if 0 < s then .inf else if s < 0 then .ninf else .nan)
  else .fin (s / n)

/-- pandas `Series.max` (line 77): `NaN` on an empty column, else the
maximum entry. -/
def pyMax : List ℚ → PFloat
  | [] => .nan
  | x :: r => .fin (r.foldl max x)

/-- One unrolling stage of the overflow-adjustment loop (lines 86-90):
`while max_size_SRA > avg_disk_per_node: avg_disk_per_node += 1000000000`.
The first argument is fuel; `adjustFuel` below supplies enough fuel for
the loop to reach its exit condition, so the fuel-0 case is never the
final word (see `adjustLoopQ_spec`). -/
def adjustLoopF : ℕ → ℚ → ℚ → ℚ
  | 0, _, a => a
  | k + 1, m, a => if a < m then adjustLoopF k m (a + 1000000000) else a

/-- Number of passes after which the loop condition `a < m` must have
become false: the minimal `k` with `a + k * 10^9 ≥ m`, plus one for the
final test. -/
def adjustFuel (m a : ℚ) : ℕ :=
  (⌈(m - a) / 1000000000⌉).toNat + 1

/-- The overflow-adjustment loop on finite values: repeatedly add
`1000000000` to `a` while `a < m`. -/
def adjustLoopQ (m a : ℚ) : ℚ :=
  adjustLoopF (adjustFuel m a) m a

/-- The overflow-adjustment loop over numpy doubles.  `m` is
`max_size_SRA`, `a` is the initial `avg_disk_per_node`; the result is the
final `avg_disk_per_node`, or `none` when the source loop never exits:
* both finite: the rational loop above (always terminates);
* `m` is `NaN` (empty column) or not greater than `a`: the guard
  `m > a` is false at once (IEEE `NaN` comparisons are false, and
  nothing exceeds `+inf`), so `a` is returned unchanged;
* `a = -inf` with finite `m`, or `m = +inf` with `a` below it: the guard
  stays true forever (`-inf + 10^9 = -inf`), the program hangs. -/
def adjust : PFloat → PFloat → Option PFloat
  | .fin m, .fin a => some (.fin (adjustLoopQ m a))
  | .fin _, .ninf => none
  | .inf, .fin _ => none
  | .inf, .ninf => none
  | _, a => some a

/-- State of the partitioning loop (lines 102-105 initialise it):
`df` is `df_sorted` as (accession, disk_req) rows in descending weight
order, `group`, `curr` and `nodeSize` are `group`, `curr_group` and
`node_size`, and `allg` records, in closing order, the member list that
was written to each `SRA_set_{i}` file appended to `all_groups`. -/
structure LoopSt where
  df : List (String × ℚ)
  group : ℕ
  curr : List String
  allg : List (List String)
  nodeSize : ℚ
  deriving DecidableEq, Repr

/-- Disk weight of the last row of `df_sorted` (`.iloc[-1]`); the
default is irrelevant: every use is on a non-empty frame. -/
def lastW (l : List (String × ℚ)) : ℚ :=
  (l.getLastD ("", 0)).2

/-- Accession of the last row of `df_sorted` (`.iloc[-1]`). -/
def lastA (l : List (String × ℚ)) : String :=
  (l.getLastD ("", 0)).1

/-- `node_size + df_sorted["disk_req"].iloc[-1] < avg_disk_per_node`
with a possibly non-finite threshold. -/
def fitsBelow (q : ℚ) (avg : PFloat) : Bool :=
  PFloat.lt (.fin q) avg

/-- One iteration of the `while len(df_sorted) > 0` loop
(lines 118-144).  `none` means the loop exits before mutating the
observable state: either the frame is empty, or a single row remains,
which line 121 drops (and logs) before `break` — that row joins no group
and is written to no file.  Otherwise:
* `node_size == 0` (line 124): seed the group with the largest remaining
  row — add its weight, append its accession, drop the row;
* the smallest remaining row fits strictly below the threshold
  (line 130): append its accession, drop the row, and then add
  `df_sorted["disk_req"].iloc[-1]` — which after the drop is the weight
  of the *new* last row, not of the row just appended (lines 133-134);
* otherwise (line 135): close the group — increment `group`, write
  `curr_group` to the next `SRA_set` file (recorded in `allg`), reset
  `curr_group` and `node_size`; the frame is unchanged, so the row that
  failed to fit is re-examined against the fresh group. -/
def partStep (avg : PFloat) (s : LoopSt) : Option LoopSt :=
  match s.df with
  | [] => none
  | [_] => none
  | x :: y :: rest =>
    if s.nodeSize = 0 then
      some { s with
        df := y :: rest
        curr := s.curr ++ [x.1]
        nodeSize := s.nodeSize + x.2 }
    else if fitsBelow (s.nodeSize + lastW (x :: y :: rest)) avg then
      some { s with
        df := (x :: y :: rest).dropLast
        curr := s.curr ++ [lastA (x :: y :: rest)]
        nodeSize := s.nodeSize + lastW ((x :: y :: rest).dropLast) }
    else
      some { s with
        group := s.group + 1
        allg := s.allg ++ [s.curr]
        curr := []
        nodeSize := 0 }

/-- Loop progress measure: every iteration either removes a row or (when
closing a group) resets a non-zero `node_size` to zero. -/
def stMeasure (s : LoopSt) : ℕ :=
  2 * s.df.length + (if s.nodeSize = 0 then 0 else 1)

/-- Fuel-driven iteration of `partStep`. -/
def partLoopF : ℕ → PFloat → LoopSt → LoopSt
  | 0, _, s => s
  | k + 1, avg, s =>
    match partStep avg s with
    | none => s
    | some s' => partLoopF k avg s'

/-- The partitioning loop: iterate `partStep` to its fixed point;
`stMeasure s + 1` steps always suffice (`partLoop_exit` below). -/
def partLoop (avg : PFloat) (s : LoopSt) : LoopSt :=
  partLoopF (stMeasure s + 1) avg s

/-- Initial loop state (lines 102-105). -/
def initSt (l : List (String × ℚ)) : LoopSt :=
  { df := l, group := 0, curr := [], allg := [], nodeSize := 0 }

/-- Insert a row into a descending-weight list, keeping earlier rows
first among equal weights. -/
def insertDesc (x : String × ℚ) : List (String × ℚ) → List (String × ℚ)
  | [] => [x]
  | y :: r => if y.2 < x.2 then x :: y :: r else y :: insertDesc x r

/-- `df.sort_values(by="disk_req", ascending=False)` (line 98).  pandas'
default quicksort fixes no order among equal weights; this insertion
sort keeps input order there, and no claim depends on tie order. -/
def sortDesc (l : List (String × ℚ)) : List (String × ℚ) :=
  l.foldr insertDesc []

/-- `df["run_1_size"].apply(convert_size)` (line 70): pandas evaluates
row by row and the first raised `ValueError` aborts the whole `apply`
(leaving the frame unassigned). -/
def traverseConvert : List (String × Cell) → Except PyErr (List (String × ℚ))
  | [] => .ok []
  | (i, c) :: r => do
    let q ← convert_size c
    let rest ← traverseConvert r
    return (i, q) :: rest

/-- `df["disk_req"] = df["run_1_size"] * 20` (line 73). -/
def diskItems (items : List (String × ℚ)) : List (String × ℚ) :=
  items.map (fun p => (p.1, p.2 * 20))

/-- `nodes = max_cpu_request // cpu_per_node` (line 42), for the
positive integers the configuration carries. -/
def nodesCalc (max_cpu cpu_base : ℕ) : ℕ :=
  max_cpu / cpu_base

/-- Lines 76-94: initial `avg_disk_per_node = disk_req.sum() / nodes`,
`max_size_SRA = disk_req.max()`, then the overflow-adjustment loop. -/
def balanceAvg (items : List (String × ℚ)) (nodes : ℕ) : Option PFloat :=
  adjust (pyMax ((diskItems items).map Prod.snd))
    (pyDivNat ((diskItems items).map Prod.snd).sum nodes)

/-- Lines 98-144: sort by descending disk requirement and run the
partitioning loop from the initial state. -/
def balanceGroups (items : List (String × ℚ)) (avg : PFloat) : LoopSt :=
  partLoop avg (initSt (sortDesc (diskItems items)))

/-- Lines 153-156: `cpu_per_node = 2 * base if nodes // groups >= 2
else base`. -/
def cpuRealloc (nodes groups cpu_base : ℕ) : ℕ :=
  if 2 ≤ nodes / groups then 2 * cpu_base else cpu_base

/-- Observable outcome of a `balance_nodes` call. -/
inductive BalanceResult where
  /-- An uncaught `ZeroDivisionError`: either `cpu_per_node` is zero at
  line 42, or `len(all_groups)` is zero at line 153. -/
  | zeroDivisionError : BalanceResult
  /-- An uncaught `ValueError` escaping `convert_size` at line 70. -/
  | valueError : BalanceResult
  /-- The overflow-adjustment loop never exits. -/
  | diverge : BalanceResult
  /-- Normal return: the member lists written to the `SRA_set` files in
  closing order, the final `avg_disk_per_node` stored as
  `disk_request`, the reallocated `cpu_per_node`, and `nodes`. -/
  | ok (written : List (List String)) (disk : PFloat) (cpu : ℕ) (nodes : ℕ) : BalanceResult
  deriving DecidableEq, Repr

/-- The `balance_nodes` pipeline on the data it observes: the
`(run_1_accession, run_1_size)` rows and the two configuration integers
`max_cpu_request` and `cpu_per_node`.  File-system side effects carry no
further data flow; the member lists written per group are returned in
`BalanceResult.ok`. -/
def balance (df : List (String × Cell)) (max_cpu cpu_base : ℕ) : BalanceResult :=
  if cpu_base = 0 then .zeroDivisionError
  else
    match traverseConvert df with
    | .error _ => .valueError
    | .ok items =>
      match balanceAvg items (nodesCalc max_cpu cpu_base) with
      | none => .diverge
      | some avg =>
        let st := balanceGroups items avg
        if st.allg.length = 0 then .zeroDivisionError
        else .ok st.allg avg
          (cpuRealloc (nodesCalc max_cpu cpu_base) st.allg.length cpu_base)
          (nodesCalc max_cpu cpu_base)

/-- The caller-visible `run_1_size` column after `balance_nodes`
returns (or raises): line 70 reassigns it to the converted numeric
values; when `apply` raises, no assignment happens and the frame is
unchanged.  (Line 73 additionally adds a `disk_req` column; the claims
concern the raw size values.) -/
def dfAfterBalance (df : List (String × Cell)) : List (String × Cell) :=
  match traverseConvert df with
  | .ok items => items.map (fun p => (p.1, Cell.num p.2))
  | .error _ => df

/-- Concrete frame for the conservation analysis: raw sizes 5, 4 and
2.5 MB, hence disk requirements 100, 80 and 50. -/
def c1df : List (String × Cell) :=
  [("A", .str "5"), ("B", .str "4"), ("C", .str "2.5")]

/-! ### Helper lemmas -/

/-- Master invariant of the overflow-adjustment loop, by induction on the
fuel: with enough fuel the result is `a` plus a whole number of
increments, is `a` itself when the guard is initially false, and
otherwise lands in `[m, m + 10^9)`. -/
theorem adjustLoopF_invar (k : ℕ) : ∀ m a : ℚ, (⌈(m - a) / 1000000000⌉).toNat < k →
    (∃ j : ℕ, adjustLoopF k m a = a + j * 1000000000) ∧
    (m ≤ a → adjustLoopF k m a = a) ∧
    (a < m → m ≤ adjustLoopF k m a ∧ adjustLoopF k m a < m + 1000000000) := by
  induction k with
  | zero => intro m a h; exact absurd h (Nat.not_lt_zero _)
  | succ k ih =>
    intro m a h
    by_cases hc : a < m
    · have hstep : adjustLoopF (k + 1) m a = adjustLoopF k m (a + 1000000000) := by
        simp [adjustLoopF, hc]
      have e2 : ⌈(m - (a + 1000000000)) / 1000000000⌉ = ⌈(m - a) / 1000000000⌉ - 1 := by
        have e1 : (m - (a + 1000000000)) / 1000000000 = (m - a) / 1000000000 - ((1 : ℤ) : ℚ) := by
          push_cast
          ring
        rw [e1, Int.ceil_sub_int]
      have hcpos : 0 < ⌈(m - a) / 1000000000⌉ :=
        Int.ceil_pos.mpr (div_pos (by linarith) (by norm_num))
      have hk : (⌈(m - (a + 1000000000)) / 1000000000⌉).toNat < k := by
        rw [e2]; omega
      obtain ⟨⟨j, hj⟩, hle, hlt⟩ := ih m (a + 1000000000) hk
      refine ⟨⟨j + 1, ?_⟩, fun hma => absurd hc (not_lt.mpr hma), fun _ => ?_⟩
      · rw [hstep, hj]; push_cast; ring
      · by_cases hc2 : a + 1000000000 < m
        · rw [hstep]; exact hlt hc2
        · rw [hstep, hle (not_lt.mp hc2)]
          exact ⟨not_lt.mp hc2, by linarith⟩
    · have hstep : adjustLoopF (k + 1) m a = a := by simp [adjustLoopF, hc]
      exact ⟨⟨0, by rw [hstep]; push_cast; ring⟩, fun _ => hstep,
        fun hma => absurd hma hc⟩

/-- The loop with its actual fuel: exact characterisation. -/
theorem adjustLoopQ_spec (m a : ℚ) :
    (∃ j : ℕ, adjustLoopQ m a = a + j * 1000000000) ∧
    (m ≤ a → adjustLoopQ m a = a) ∧
    (a < m → m ≤ adjustLoopQ m a ∧ adjustLoopQ m a < m + 1000000000) :=
  adjustLoopF_invar (adjustFuel m a) m a (Nat.lt_succ_self _)

/-- Bounds for the partition-progress measure regardless of the
`node_size` test. -/
theorem stMeasure_bounds (s : LoopSt) :
    2 * s.df.length ≤ stMeasure s ∧ stMeasure s ≤ 2 * s.df.length + 1 := by
  unfold stMeasure
  split <;> omega

/-- Every successful `partStep` strictly decreases the progress
measure. -/
theorem partStep_measure (avg : PFloat) (s s' : LoopSt)
    (h : partStep avg s = some s') : stMeasure s' < stMeasure s := by
  match hdf : s.df with
  | [] => simp [partStep, hdf] at h
  | [x] => simp [partStep, hdf] at h
  | x :: y :: rest =>
    simp only [partStep, hdf] at h
    have hlen : s.df.length = rest.length + 2 := by rw [hdf]; simp
    by_cases h0 : s.nodeSize = 0
    · rw [if_pos h0] at h
      have hs' : s'.df.length = rest.length + 1 := by
        cases h; simp
      have hb := stMeasure_bounds s'
      have hb2 := stMeasure_bounds s
      omega
    · rw [if_neg h0] at h
      have hmem : stMeasure s = 2 * s.df.length + 1 := by
        unfold stMeasure
        rw [if_neg h0]
      by_cases hfit : fitsBelow (s.nodeSize + lastW (x :: y :: rest)) avg
      · rw [if_pos hfit] at h
        have hs' : s'.df.length = rest.length + 1 := by
          cases h; simp
        have hb := stMeasure_bounds s'
        omega
      · rw [if_neg hfit] at h
        have hs' : s'.df = s.df ∧ s'.nodeSize = 0 := by
          cases h; exact ⟨hdf.symm, rfl⟩
        have : stMeasure s' = 2 * s.df.length := by
          unfold stMeasure
          rw [hs'.1, if_pos hs'.2]
          omega
        omega

/-- With enough fuel, the fuel-driven loop reaches a state on which
`partStep` exits. -/
theorem partLoopF_exit (k : ℕ) : ∀ (avg : PFloat) (s : LoopSt), stMeasure s < k →
    partStep avg (partLoopF k avg s) = none := by
  induction k with
  | zero => intro avg s h; exact absurd h (Nat.not_lt_zero _)
  | succ k ih =>
    intro avg s h
    match hstep : partStep avg s with
    | none => rw [partLoopF, hstep]; exact hstep
    | some s' =>
      rw [partLoopF, hstep]
      exact ih avg s' (by have := partStep_measure avg s s' hstep; omega)

/-- `partLoop` models the full `while` loop: its result is a state the
loop guard (as embodied by `partStep`) exits on. -/
theorem partLoop_exit (avg : PFloat) (s : LoopSt) :
    partStep avg (partLoop avg s) = none :=
  partLoopF_exit (stMeasure s + 1) avg s (Nat.lt_succ_self _)

/-- With an infinite threshold every candidate row fits, so a step never
closes a group. -/
theorem partStep_inf_allg (s s' : LoopSt) (h : partStep PFloat.inf s = some s') :
    s'.allg = s.allg := by
  match hdf : s.df with
  | [] => simp [partStep, hdf] at h
  | [x] => simp [partStep, hdf] at h
  | x :: y :: rest =>
    simp only [partStep, hdf] at h
    by_cases h0 : s.nodeSize = 0
    · rw [if_pos h0] at h
      cases h; rfl
    · rw [if_neg h0] at h
      have hfit : fitsBelow (s.nodeSize + lastW (x :: y :: rest)) PFloat.inf = true := rfl
      rw [if_pos hfit] at h
      cases h; rfl

/-- With an infinite threshold the loop never closes a group. -/
theorem partLoopF_inf_allg (k : ℕ) : ∀ s : LoopSt,
    (partLoopF k PFloat.inf s).allg = s.allg := by
  induction k with
  | zero => intro s; rfl
  | succ k ih =>
    intro s
    match hstep : partStep PFloat.inf s with
    | none => rw [partLoopF, hstep]
    | some s' =>
      rw [partLoopF, hstep]
      rw [ih s', partStep_inf_allg s s' hstep]

/-- A one-row frame exits the loop at once (line 119 drops the row and
breaks), closing no group. -/
theorem partLoop_single_allg (avg : PFloat) (x : String × ℚ) :
    (partLoop avg (initSt [x])).allg = [] := rfl

/-- An empty frame skips the loop entirely, closing no group. -/
theorem partLoop_nil_allg (avg : PFloat) :
    (partLoop avg (initSt [])).allg = [] := rfl

/-- When the partitioning loop closes no group, `len(all_groups) = 0`
and line 153 divides by zero. -/
theorem balance_no_groups (df : List (String × Cell)) (mc cb : ℕ)
    (items : List (String × ℚ)) (avg : PFloat)
    (hcb : cb ≠ 0) (hconv : traverseConvert df = .ok items)
    (havg : balanceAvg items (nodesCalc mc cb) = some avg)
    (hallg : (balanceGroups items avg).allg = []) :
    balance df mc cb = .zeroDivisionError := by
  simp only [balance, if_neg hcb, hconv, havg, hallg]
  simp

/-- Conversion preserves the accession column. -/
theorem traverseConvert_fst : ∀ (df : List (String × Cell)) (items : List (String × ℚ)),
    traverseConvert df = .ok items → items.map Prod.fst = df.map Prod.fst := by
  intro df
  induction df with
  | nil =>
    intro items h
    rw [traverseConvert] at h
    cases h
    rfl
  | cons p r ih =>
    intro items h
    rw [traverseConvert] at h
    match hc : convert_size p.2 with
    | .error e => rw [hc] at h; exact absurd h (by simp [Bind.bind, Except.bind])
    | .ok q =>
      rw [hc] at h
      match hr : traverseConvert r with
      | .error e => rw [hr] at h; exact absurd h (by simp [Bind.bind, Except.bind])
      | .ok rest =>
        rw [hr] at h
        have : items = (p.1, q) :: rest := by
          simpa [Bind.bind, Except.bind, pure, Except.pure] using h.symm
        rw [this]
        simp [ih rest hr]

/-! ### Claim theorems -/

/-- C2.  Unit conversion correctness of the size normalizer: a
missing/null input yields 0; a float-parseable string yields the parsed
value unchanged; a `GB`-marked value is multiplied by 1024, an
`MB`-marked value is unchanged, a `KB`-marked value is divided by 1024;
in particular `convert_size "2GB" = 2048`, `convert_size "10MB" = 10`,
`convert_size "500KB" = 500/1024`. -/
theorem c2_unit_conversion :
    convert_size .null = .ok 0 ∧
    (∀ (s : String) (q : ℚ), parseFloatC (pyStrip s.data) = some q →
      convert_size (.str s) = .ok q) ∧
    (∀ (s : String) (q : ℚ), parseFloatC (pyStrip s.data) = none →
      hasSubC (pyStrip s.data) "GB".data = true →
      parseFloatC (listRemove (pyStrip s.data) "GB".data) = some q →
      convert_size (.str s) = .ok (q * 1024)) ∧
    (∀ (s : String) (q : ℚ), parseFloatC (pyStrip s.data) = none →
      hasSubC (pyStrip s.data) "GB".data = false →
      hasSubC (pyStrip s.data) "MB".data = true →
      parseFloatC (listRemove (pyStrip s.data) "MB".data) = some q →
      convert_size (.str s) = .ok q) ∧
    (∀ (s : String) (q : ℚ), parseFloatC (pyStrip s.data) = none →
      hasSubC (pyStrip s.data) "GB".data = false →
      hasSubC (pyStrip s.data) "MB".data = false →
      hasSubC (pyStrip s.data) "KB".data = true →
      parseFloatC (listRemove (pyStrip s.data) "KB".data) = some q →
      convert_size (.str s) = .ok (q / 1024)) ∧
    convert_size (.str "2GB") = .ok 2048 ∧
    convert_size (.str "10MB") = .ok 10 ∧
    convert_size (.str "500KB") = .ok (500 / 1024) := by
  refine ⟨by decide, ?_, ?_, ?_, ?_, by decide, by decide, by decide⟩
  · intro s q h1
    simp [convert_size, h1]
  · intro s q h1 h2 h3
    simp [convert_size, h1, h2, h3]
  · intro s q h1 h2 h3 h4
    simp [convert_size, h1, h2, h3, h4]
  · intro s q h1 h2 h3 h4 h5
    simp [convert_size, h1, h2, h3, h4, h5]

/-- Witness for C2: the numeric, GB, MB and KB rules applied at the
spec's concrete inputs. -/
theorem c2_unit_conversion_witness :
    parseFloatC (pyStrip "7".data) = some 7 ∧
    convert_size (.str "7") = .ok 7 ∧
    convert_size (.str "2GB") = .ok (2 * 1024) ∧
    convert_size (.str "10MB") = .ok 10 ∧
    convert_size (.str "500KB") = .ok (500 / 1024) :=
  ⟨by decide, c2_unit_conversion.2.1 "7" 7 (by decide),
   c2_unit_conversion.2.2.1 "2GB" 2 (by decide) (by decide) (by decide),
   c2_unit_conversion.2.2.2.1 "10MB" 10 (by decide) (by decide) (by decide) (by decide),
   c2_unit_conversion.2.2.2.2.1 "500KB" 500 (by decide) (by decide) (by decide)
     (by decide) (by decide)⟩

/-- C3 counterexample.  The claim says the normalizer never raises, even
for a string with a unit marker whose remainder is unparseable; but for
`"fooGB"` the code enters the `"GB" in size_str` branch and
`float("foo")` raises an uncaught `ValueError`. -/
theorem c3_counterexample :
    convert_size (.str "fooGB") = .error .valueError := by decide

/-- C3 as amended.  For a string with no parseable float and no
`GB`/`MB`/`KB` marker, the normalizer logs a warning and returns 0
without raising; when a unit marker is present but the string with the
marker removed does not parse, a `ValueError` escapes instead. -/
theorem c3_total_on_unitless (s : String)
    (h1 : parseFloatC (pyStrip s.data) = none)
    (h2 : hasSubC (pyStrip s.data) "GB".data = false)
    (h3 : hasSubC (pyStrip s.data) "MB".data = false)
    (h4 : hasSubC (pyStrip s.data) "KB".data = false) :
    convert_size (.str s) = .ok 0 := by
  simp [convert_size, h1, h2, h3, h4]

/-- Witness for the amended C3 at `"hello"`. -/
theorem c3_total_on_unitless_witness :
    parseFloatC (pyStrip "hello".data) = none ∧
    convert_size (.str "hello") = .ok 0 :=
  ⟨by decide,
   c3_total_on_unitless "hello" (by decide) (by decide) (by decide) (by decide)⟩

/-- C5 counterexample.  One pass of the overflow-adjustment loop adds
the literal `1000000000` (line 90), not `1024`: from `disk_per_node = 5`
and maximum requirement `10`, one pass yields `1000000005 ≠ 5 + 1024`. -/
theorem c5_counterexample :
    adjustLoopQ 10 5 = 1000000005 ∧ (1000000005 : ℚ) ≠ 5 + 1024 := by decide

/-- C5 as amended.  Each pass of the overflow-adjustment loop increases
`disk_per_node` by exactly `1000000000` (the literal at line 90 — 1 GB
in decimal bytes, not 1024); the loop runs exactly while the maximum
single-item requirement exceeds `disk_per_node`, and on exit the maximum
no longer exceeds it. -/
theorem c5_adjust_increment (m a : ℚ) :
    (∀ k : ℕ, a < m → adjustLoopF (k + 1) m a = adjustLoopF k m (a + 1000000000)) ∧
    (m ≤ a → adjustLoopQ m a = a) ∧
    m ≤ adjustLoopQ m a := by
  refine ⟨fun k h => by simp [adjustLoopF, h], (adjustLoopQ_spec m a).2.1, ?_⟩
  by_cases hc : a < m
  · exact ((adjustLoopQ_spec m a).2.2 hc).1
  · rw [(adjustLoopQ_spec m a).2.1 (not_lt.mp hc)]
    exact not_lt.mp hc

/-- Witness for the amended C5 at `m = 10`, `a = 5`. -/
theorem c5_adjust_increment_witness :
    adjustLoopF 1 10 5 = adjustLoopF 0 10 (5 + 1000000000) ∧
    (10 : ℚ) ≤ adjustLoopQ 10 5 :=
  ⟨(c5_adjust_increment 10 5).1 0 (by decide), (c5_adjust_increment 10 5).2.2⟩

/-- C6 counterexample.  Two items of disk requirement `2·10^9` (raw size
`10^8`) on one node: the initial average `4·10^9` already satisfies the
guard, is returned unchanged, and exceeds the largest single requirement
plus one increment (`3·10^9`) — the claimed upper bound fails. -/
theorem c6_counterexample :
    adjust (pyMax [2000000000, 2000000000]) (pyDivNat 4000000000 1) =
      some (.fin 4000000000) ∧
    ¬((4000000000 : ℚ) ≤ 2000000000 + 1000000000) := by decide

/-- C6 as amended.  The overflow-adjustment loop always terminates and
performs a whole number of fixed `1000000000` increments; its final
value is either the unchanged initial value (when the guard never held)
or lies strictly below the largest requirement plus one increment. -/
theorem c6_adjust_convergence (m a : ℚ) :
    (∃ k : ℕ, adjustLoopQ m a = a + k * 1000000000) ∧
    (adjustLoopQ m a = a ∨ adjustLoopQ m a < m + 1000000000) := by
  refine ⟨(adjustLoopQ_spec m a).1, ?_⟩
  by_cases hc : a < m
  · exact Or.inr ((adjustLoopQ_spec m a).2.2 hc).2
  · exact Or.inl ((adjustLoopQ_spec m a).2.1 (not_lt.mp hc))

/-- C7.  CPU reallocation: with at least one group produced and a
positive base, the returned `cpu_per_node` is `2 * base` exactly when
`nodes // groups ≥ 2`, and `base` otherwise; in particular 10 nodes with
4 groups give 8 and with 6 groups give 4 (base 4). -/
theorem c7_cpu_realloc (n g b : ℕ) (hg : 1 ≤ g) (hb : 1 ≤ b) :
    (cpuRealloc n g b = 2 * b ↔ 2 ≤ n / g) ∧
    cpuRealloc 10 4 4 = 8 ∧ cpuRealloc 10 6 4 = 4 := by
  refine ⟨?_, by decide, by decide⟩
  unfold cpuRealloc
  by_cases h : 2 ≤ n / g
  · simp [h]
  · simp [h]
    omega

/-- Witness for C7 at the spec's concrete inputs. -/
theorem c7_cpu_realloc_witness :
    (cpuRealloc 10 4 4 = 2 * 4 ↔ 2 ≤ 10 / 4) ∧
    cpuRealloc 10 4 4 = 8 ∧ cpuRealloc 10 6 4 = 4 :=
  c7_cpu_realloc 10 4 4 (by decide) (by decide)

/-- C1.  Conservation fails on the code: for the frame with raw sizes
5, 4 and 2.5 MB (disk requirements 100, 80, 50) and 2 nodes
(threshold 115), the only written group file contains `A` alone — `B`
stays in the never-written open group and `C` is the final leftover row
that line 121 drops before `break` — so the written output loses `B`
and `C`. -/
theorem c1_conservation_violated :
    balance c1df 8 4 = .ok [["A"]] (.fin 115) 8 2 ∧
    "B" ∈ c1df.map Prod.fst ∧ "C" ∈ c1df.map Prod.fst ∧
    "B" ∉ ["A"] ∧ "C" ∉ ["A"] := by decide

/-- C4 counterexample.  With `max_cpu_request = 2` and
`cpu_per_node = 4` the node count is `0 < 1`, yet `balance_nodes`
raises no configuration error before partitioning: it divides by the
zero node count (numpy yields `inf`), runs the whole partitioning loop,
and only then dies with `ZeroDivisionError` at line 153. -/
theorem c4_counterexample :
    nodesCalc 2 4 = 0 ∧
    balance [("A", .str "1"), ("B", .str "2")] 2 4 = .zeroDivisionError := by decide

/-- C4 as amended.  `balance_nodes` computes
`node_count = max_cpu_request // cpu_per_node` but performs no
validation on it: when `node_count = 0` and the total disk requirement
is positive, the per-node threshold becomes `+inf`, every item is
accepted into the first group, no group is ever closed, and the call
fails with `ZeroDivisionError` at the CPU-reallocation step — after the
partitioning work, not before it. -/
theorem c4_no_node_validation (df : List (String × Cell)) (mc cb : ℕ)
    (items : List (String × ℚ))
    (hcb : cb ≠ 0) (h0 : nodesCalc mc cb = 0)
    (hconv : traverseConvert df = .ok items)
    (hpos : 0 < ((diskItems items).map Prod.snd).sum) :
    balance df mc cb = .zeroDivisionError := by
  have hne : (diskItems items).map Prod.snd ≠ [] := by
    intro hnil
    rw [hnil] at hpos
    exact absurd hpos (by simp)
  obtain ⟨w, ws, hw⟩ : ∃ w ws, (diskItems items).map Prod.snd = w :: ws := by
    match hlist : (diskItems items).map Prod.snd with
    | [] => exact absurd hlist hne
    | w :: ws => exact ⟨w, ws, rfl⟩
  have havg : balanceAvg items (nodesCalc mc cb) = some .inf := by
    unfold balanceAvg
    rw [h0, hw]
    have hdiv : pyDivNat (w :: ws).sum 0 = .inf := by
      rw [← hw]
      simp [pyDivNat, hpos]
    rw [hdiv]
    rfl
  have hgroups : (balanceGroups items PFloat.inf).allg = [] := by
    unfold balanceGroups partLoop
    rw [partLoopF_inf_allg]
    rfl
  exact balance_no_groups df mc cb items .inf hcb hconv havg hgroups

/-- Witness for the amended C4: one item of raw size 3 under
`max_cpu_request = 3`, `cpu_per_node = 4`. -/
theorem c4_no_node_validation_witness :
    (4 : ℕ) ≠ 0 ∧ nodesCalc 3 4 = 0 ∧
    traverseConvert [("X", Cell.str "3")] = .ok [("X", 3)] ∧
    (0 : ℚ) < ((diskItems [("X", (3 : ℚ))]).map Prod.snd).sum ∧
    balance [("X", .str "3")] 3 4 = .zeroDivisionError :=
  ⟨by decide, by decide, by decide, by decide,
   c4_no_node_validation [("X", .str "3")] 3 4 [("X", 3)]
     (by decide) (by decide) (by decide) (by decide)⟩

/-- C8.  The acceptance test uses the true tail weight
(`70 + 5 < 100`), but after the row is dropped, line 134 adds
`df_sorted["disk_req"].iloc[-1]` — now the *new* tail's weight — so the
accumulator jumps from 70 to 100 instead of 75: weight accounting is
wrong, and here the accumulated weight of group 2 (not the group seeded
with the largest item) reaches the threshold.  The pre-state is reached
in three steps from the sorted input `[95, 70, 30, 5]` with
threshold 100 (sizes 4.75/3.5/1.5/0.25 MB, 2 nodes). -/
theorem c8_weight_accounting_slip :
    partLoopF 3 (.fin 100) (initSt [("A", 95), ("B", 70), ("C", 30), ("D", 5)]) =
      { df := [("C", 30), ("D", 5)], group := 1, curr := ["B"],
        allg := [["A"]], nodeSize := 70 } ∧
    partStep (.fin 100)
      { df := [("C", 30), ("D", 5)], group := 1, curr := ["B"],
        allg := [["A"]], nodeSize := 70 } =
      some { df := [("C", 30)], group := 1, curr := ["B", "D"],
             allg := [["A"]], nodeSize := 100 } ∧
    fitsBelow (70 + 5) (.fin 100) = true ∧
    (100 : ℚ) ≠ 70 + 5 ∧
    ¬((100 : ℚ) < 100) := by decide

/-- C9 counterexample.  `balance_nodes` mutates its caller's frame:
line 70 overwrites the `run_1_size` column in place, so after the call
the raw size `"2GB"` has become the number 2048. -/
theorem c9_counterexample :
    dfAfterBalance [("A", .str "2GB")] = [("A", Cell.num 2048)] ∧
    [("A", Cell.num 2048)] ≠ [("A", Cell.str "2GB")] := by decide

/-- C9 as amended.  The balancing call does mutate caller-visible
state: it overwrites `run_1_size` with the normalized numeric values
(and adds a `disk_req` column).  The mutation is exactly that: the
accession column is unchanged, and on a conversion error the frame is
untouched; the partitioning itself works on a separate sorted copy. -/
theorem c9_mutation_extent (df : List (String × Cell)) :
    (dfAfterBalance df).map Prod.fst = df.map Prod.fst ∧
    (∀ items, traverseConvert df = .ok items →
      dfAfterBalance df = items.map (fun p => (p.1, Cell.num p.2))) := by
  constructor
  · match htc : traverseConvert df with
    | .error e => unfold dfAfterBalance; rw [htc]
    | .ok items =>
      unfold dfAfterBalance
      rw [htc]
      have := traverseConvert_fst df items htc
      simpa using this
  · intro items h
    unfold dfAfterBalance
    rw [h]

/-- Witness for the amended C9 at a one-row frame. -/
theorem c9_mutation_extent_witness :
    traverseConvert [("A", Cell.str "5")] = .ok [("A", 5)] ∧
    dfAfterBalance [("A", Cell.str "5")] = [("A", Cell.num 5)] ∧
    (dfAfterBalance [("A", Cell.str "5")]).map Prod.fst =
      [("A", Cell.str "5")].map Prod.fst :=
  ⟨by decide,
   ((c9_mutation_extent [("A", Cell.str "5")]).2 [("A", 5)] (by decide)).trans (by decide),
   (c9_mutation_extent [("A", Cell.str "5")]).1⟩

/-- C10.  Whenever the partitioning loop closes no group —
in particular for an empty frame, for any one-row frame, and for any
frame whose rows are all accepted into the first group —
`len(all_groups) = 0` and `balance_nodes` raises an uncaught
`ZeroDivisionError` at `nodes // len(all_groups)` (line 153) instead of
returning. -/
theorem c10_zero_groups :
    (∀ (df : List (String × Cell)) (mc cb : ℕ) (items : List (String × ℚ))
        (avg : PFloat),
      cb ≠ 0 → traverseConvert df = .ok items →
      balanceAvg items (nodesCalc mc cb) = some avg →
      (balanceGroups items avg).allg = [] →
      balance df mc cb = .zeroDivisionError) ∧
    (∀ (avg : PFloat) (x : String × ℚ), (partLoop avg (initSt [x])).allg = []) ∧
    (∀ avg : PFloat, (partLoop avg (initSt [])).allg = []) ∧
    (∀ (i : String) (c : Cell) (q : ℚ) (mc cb : ℕ),
      cb ≠ 0 → 1 ≤ nodesCalc mc cb → convert_size c = .ok q →
      balance [(i, c)] mc cb = .zeroDivisionError) ∧
    (∀ mc cb : ℕ, cb ≠ 0 → balance [] mc cb = .zeroDivisionError) := by
  refine ⟨balance_no_groups, partLoop_single_allg, partLoop_nil_allg, ?_, ?_⟩
  · intro i c q mc cb hcb hn hc
    have hnn : nodesCalc mc cb ≠ 0 := by omega
    have hconv : traverseConvert [(i, c)] = .ok [(i, q)] := by
      unfold traverseConvert traverseConvert
      rw [hc]
      rfl
    have havg : balanceAvg [(i, q)] (nodesCalc mc cb) =
        some (.fin (adjustLoopQ (q * 20) ([q * 20].sum / (nodesCalc mc cb : ℕ)))) := by
      unfold balanceAvg
      have hdisk : (diskItems [(i, q)]).map Prod.snd = [q * 20] := rfl
      rw [hdisk]
      unfold pyDivNat
      rw [if_neg hnn]
      rfl
    refine balance_no_groups [(i, c)] mc cb [(i, q)] _ hcb hconv havg ?_
    unfold balanceGroups
    have hsort : sortDesc (diskItems [(i, q)]) = [(i, q * 20)] := rfl
    rw [hsort]
    exact partLoop_single_allg _ _
  · intro mc cb hcb
    have hconv : traverseConvert ([] : List (String × Cell)) = .ok [] := rfl
    have havg : balanceAvg [] (nodesCalc mc cb) =
        some (pyDivNat 0 (nodesCalc mc cb)) := rfl
    refine balance_no_groups [] mc cb [] _ hcb hconv havg ?_
    exact partLoop_nil_allg _

/-- Witness for C10: one item of raw size 5 under 2 nodes; the overflow
loop raises the threshold to 1000000050 and the single row is dropped
without joining a group. -/
theorem c10_zero_groups_witness :
    (4 : ℕ) ≠ 0 ∧ traverseConvert [("A", Cell.str "5")] = .ok [("A", 5)] ∧
    balanceAvg [("A", (5 : ℚ))] (nodesCalc 8 4) = some (.fin 1000000050) ∧
    (balanceGroups [("A", (5 : ℚ))] (.fin 1000000050)).allg = [] ∧
    balance [("A", Cell.str "5")] 8 4 = .zeroDivisionError :=
  ⟨by decide, by decide, by decide, by decide,
   c10_zero_groups.1 [("A", Cell.str "5")] 8 4 [("A", 5)] (.fin 1000000050)
     (by decide) (by decide) (by decide) (by decide)⟩

end BalanceNodes
